import Mathlib

/-!
# AgriTrust AI — formal model of the scoring pipeline and application store

Shallow embedding of the core logic of the repository:

* `src/api_simulation.py` — the scoring pipeline: `predict` turns the
  classifier's positive-class probability into a 0–100 trust score via a
  logistic S-curve, maps the score to a risk tier (`_score_to_category`),
  and derives the approval decision.
* `src/database.py` — the application store: `insert_application`,
  `fetch_all_applications` (ordered by timestamp descending, optional
  risk-category filter) and `get_summary_stats`.
* `src/app.py` — the evaluate handler that calls `predict` and persists
  the outcome.

Probabilities and the logistic transform are modelled over `ℝ`; the
rounded one-decimal trust score and all stored numeric fields are
modelled over `ℚ`.  Timestamps are modelled as naturals (the code stores
`"%Y-%m-%d %H:%M:%S"` strings whose lexicographic order is chronological).
Wall-clock latency is an external input to `predict`.
-/

namespace AgriTrust

/-- src/api_simulation.py `MODEL_VERSION`. -/
def MODEL_VERSION : String := "1.3.0-agritrust"

/-- src/api_simulation.py `FEATURE_ORDER` (feature order must match training). -/
def FEATURE_ORDER : List String :=
  ["farm_size", "soil_score", "rainfall", "previous_loans", "yield_amount"]

/-- src/api_simulation.py `PredictRequest` dataclass. -/
structure PredictRequest where
  farm_size      : ℚ
  soil_score     : ℤ
  rainfall       : ℚ
  previous_loans : ℤ
  yield_amount   : ℚ
deriving DecidableEq

/-- src/api_simulation.py `PredictResponse` dataclass. -/
structure PredictResponse where
  trust_score   : ℚ
  risk_category : String
  approved      : Bool
  model_version : String
  latency_ms    : ℚ
deriving DecidableEq

/-- The feature row `X` assembled in `predict`, in `FEATURE_ORDER`. -/
def featureVector (r : PredictRequest) : List ℝ :=
  [(r.farm_size : ℝ), (r.soil_score : ℝ), (r.rainfall : ℝ),
   (r.previous_loans : ℝ), (r.yield_amount : ℝ)]

/-- The loaded classifier, abstracted as the probability it returns for the
positive ("approved") class on a feature row (`model.predict_proba(X)[0][1]`). -/
def Model : Type := List ℝ → ℝ

/-- src/api_simulation.py `_score_to_category`. -/
def score_to_category (score : ℚ) : String :=
  if score ≥ 70 then "Low Risk"
  else if score ≥ 50 then "Moderate Risk"
  else if score ≥ 30 then "High Risk"
  else "Very High Risk"

/-- The raw S-curve value `100 / (1 + exp(-10 * (prob - 0.5)))` computed in
`predict` before rounding. -/
noncomputable def rawTrustScore (p : ℝ) : ℝ :=
  100 / (1 + Real.exp (-10 * (p - 0.5)))

/-- Python's `round(x, 1)`: round to the nearest multiple of 1/10, as a
rational with one decimal place. -/
noncomputable def round1 (x : ℝ) : ℚ :=
  (round (10 * x) : ℤ) / 10

/-- The trust score produced by `predict`:
`round(100 / (1 + np.exp(-10 * (prob - 0.5))), 1)`. -/
noncomputable def trustScore (p : ℝ) : ℚ :=
  round1 (rawTrustScore p)

/-- src/api_simulation.py `predict`.  The wall-clock latency measured by the
`time.perf_counter` pair is an external input `elapsed_ms`. -/
noncomputable def predict (model : Model) (request : PredictRequest)
    (elapsed_ms : ℚ) : PredictResponse :=
  let prob : ℝ := model (featureVector request)
  let trust_score : ℚ := trustScore prob
  let risk_category : String := score_to_category trust_score
  let approved : Bool := decide (trust_score ≥ 50)
  { trust_score   := trust_score
    risk_category := risk_category
    approved      := approved
    model_version := MODEL_VERSION
    latency_ms    := elapsed_ms }

/-- One row of the `applications` table (src/database.py DDL in `init_db`). -/
structure ApplicationRecord where
  id             : ℕ
  applicant_name : String
  farm_size      : ℚ
  soil_score     : ℤ
  rainfall       : ℚ
  previous_loans : ℤ
  yield_amount   : ℚ
  trust_score    : ℚ
  risk_category  : String
  officer_id     : String
  timestamp      : ℕ
deriving DecidableEq

/-- The state of the SQLite `applications` table: the rows in insertion
order, plus the next auto-increment id. -/
structure Store where
  records : List ApplicationRecord
  nextId  : ℕ
deriving DecidableEq

/-- A freshly created database (after `init_db`). -/
def emptyStore : Store := ⟨[], 1⟩

/-- src/database.py `insert_application`: append a new row with the
auto-generated id and the server-assigned timestamp `ts`, returning the new
state and the new row's id (`cur.lastrowid`). -/
def insert_application (applicant_name : String) (farm_size : ℚ)
    (soil_score : ℤ) (rainfall : ℚ) (previous_loans : ℤ) (yield_amount : ℚ)
    (trust_score : ℚ) (risk_category : String) (officer_id : String)
    (ts : ℕ) (s : Store) : Store × ℕ :=
  let row : ApplicationRecord :=
    ⟨s.nextId, applicant_name, farm_size, soil_score, rainfall,
     previous_loans, yield_amount, trust_score, risk_category, officer_id, ts⟩
  (⟨s.records ++ [row], s.nextId + 1⟩, s.nextId)

/-- Insert a record `r` into a list already sorted by timestamp descending,
keeping it sorted (the `ORDER BY timestamp DESC` of the SQL queries). -/
def insertDesc (r : ApplicationRecord) :
    List ApplicationRecord → List ApplicationRecord
  | [] => [r]
  | x :: xs =>
    if x.timestamp ≤ r.timestamp then r :: x :: xs else x :: insertDesc r xs

/-- Sort a list of rows by timestamp descending. -/
def sortByTimestampDesc : List ApplicationRecord → List ApplicationRecord
  | [] => []
  | r :: rs => insertDesc r (sortByTimestampDesc rs)

/-- src/database.py `fetch_all_applications`: all rows ordered by timestamp
descending, filtered to one `risk_category` unless the filter is `"All"`. -/
def fetch_all_applications (risk_filter : String) (s : Store) :
    List ApplicationRecord :=
  if risk_filter = "All" then sortByTimestampDesc s.records
  else
    sortByTimestampDesc (s.records.filter (fun r => r.risk_category == risk_filter))

/-- The row predicate of the `approved` count query:
`risk_category IN ('Low Risk','Moderate Risk')`. -/
def isApprovedCategory (r : ApplicationRecord) : Bool :=
  r.risk_category == "Low Risk" || r.risk_category == "Moderate Risk"

/-- `round(x, 1)` on an exact rational (rounding the SQL `AVG`). -/
def round1Q (x : ℚ) : ℚ :=
  (round (10 * x) : ℤ) / 10

/-- The aggregate map returned by src/database.py `get_summary_stats`.
`distribution` pairs each risk category present with its row count
(`GROUP BY risk_category`). -/
structure SummaryStats where
  total        : ℕ
  approved     : ℕ
  rejected     : ℕ
  avg_score    : ℚ
  distribution : List (String × ℕ)
deriving DecidableEq

/-- src/database.py `get_summary_stats`.  `AVG(trust_score)` is `NULL` when
the table is empty, and the Python `round(avg_score, 1) if avg_score else 0`
also maps an exact-zero average to `0`. -/
def get_summary_stats (s : Store) : SummaryStats :=
  let total := s.records.length
  let approved := (s.records.filter isApprovedCategory).length
  let cats := (s.records.map (fun r => r.risk_category)).dedup
  let avg : ℚ :=
    if total = 0 then 0
    else
      let a := (s.records.map (fun r => r.trust_score)).sum / (total : ℚ)
      if a = 0 then 0 else round1Q a
  { total        := total
    approved     := approved
    rejected     := total - approved
    avg_score    := avg
    distribution :=
      cats.map (fun c =>
        (c, (s.records.filter (fun r => r.risk_category == c)).length)) }

/-- The arguments of one `insert_application` call, with the server-assigned
timestamp made explicit. -/
structure InsertInput where
  applicant_name : String
  farm_size      : ℚ
  soil_score     : ℤ
  rainfall       : ℚ
  previous_loans : ℤ
  yield_amount   : ℚ
  trust_score    : ℚ
  risk_category  : String
  officer_id     : String
  ts             : ℕ
deriving DecidableEq

/-- Run a sequence of `insert_application` calls against a store. -/
def runInserts : List InsertInput → Store → Store
  | [], s => s
  | i :: is, s =>
    runInserts is
      (insert_application i.applicant_name i.farm_size i.soil_score i.rainfall
        i.previous_loans i.yield_amount i.trust_score i.risk_category
        i.officer_id i.ts s).1

/-- One press of the evaluate button in src/app.py `tab_score`: call
`predict` on the form's fields, then persist the outcome with
`database.insert_application` (an empty applicant name becomes
`"Anonymous"`). -/
noncomputable def evaluateAndStore (model : Model) (applicant_name : String)
    (req : PredictRequest) (officer_id : String) (ts : ℕ) (elapsed_ms : ℚ)
    (s : Store) : Store :=
  let result := predict model req elapsed_ms
  (insert_application
    (if applicant_name = "" then "Anonymous" else applicant_name)
    req.farm_size req.soil_score req.rainfall req.previous_loans
    req.yield_amount result.trust_score result.risk_category officer_id ts
    s).1

/-- The inputs of one evaluation: the loaded model, the form fields, the
acting officer, and the clock readings. -/
structure EvalInput where
  model          : Model
  applicant_name : String
  req            : PredictRequest
  officer_id     : String
  ts             : ℕ
  elapsed_ms     : ℚ

/-- Run a sequence of evaluations against a store. -/
noncomputable def runEvaluations : List EvalInput → Store → Store
  | [], s => s
  | e :: es, s =>
    runEvaluations es
      (evaluateAndStore e.model e.applicant_name e.req e.officer_id e.ts
        e.elapsed_ms s)

/-! ## Helper lemmas about the score-to-category map -/

lemma score_to_category_eq_low {s : ℚ} (h : 70 ≤ s) :
    score_to_category s = "Low Risk" := by
  simp [score_to_category, h]

lemma score_to_category_mem_approved_iff (s : ℚ) :
    (score_to_category s = "Low Risk" ∨ score_to_category s = "Moderate Risk")
      ↔ 50 ≤ s := by
  unfold score_to_category
  split_ifs with h1 h2 h3 <;> (simp_all; try linarith)

/-! ## C2 — the score-to-tier partition -/

/-- **C2.** The score-to-tier mapping is a total, non-overlapping partition:
for every score exactly one of the four tiers is assigned, with boundaries
inclusive on the lower edge (`score ≥ 70 ↔ "Low Risk"`,
`50 ≤ score < 70 ↔ "Moderate Risk"`, `30 ≤ score < 50 ↔ "High Risk"`,
`score < 30 ↔ "Very High Risk"`); in particular `70 ↦ Low`, `50 ↦ Moderate`,
`30 ↦ High`. -/
theorem score_to_category_partition :
    (∀ s : ℚ,
      (score_to_category s = "Low Risk" ↔ 70 ≤ s) ∧
      (score_to_category s = "Moderate Risk" ↔ 50 ≤ s ∧ s < 70) ∧
      (score_to_category s = "High Risk" ↔ 30 ≤ s ∧ s < 50) ∧
      (score_to_category s = "Very High Risk" ↔ s < 30)) ∧
    score_to_category 70 = "Low Risk" ∧
    score_to_category 50 = "Moderate Risk" ∧
    score_to_category 30 = "High Risk" := by
  refine ⟨fun s => ?_, by decide, by decide, by decide⟩
  unfold score_to_category
  split_ifs with h1 h2 h3 <;>
    refine ⟨?_, ?_, ?_, ?_⟩ <;> simp_all <;>
      first
        | linarith
        | (intro h; linarith)

/-! ## C1 — approval, risk tier and score threshold agree -/

/-- **C1.** For every outcome of `predict`, the three facts `approved = true`,
`risk_category ∈ {"Low Risk", "Moderate Risk"}` and `trust_score ≥ 50` are
pairwise equivalent. -/
theorem predict_approval_equiv (model : Model) (req : PredictRequest)
    (elapsed_ms : ℚ) :
    ((predict model req elapsed_ms).approved = true ↔
      (predict model req elapsed_ms).risk_category ∈
        ["Low Risk", "Moderate Risk"]) ∧
    ((predict model req elapsed_ms).risk_category ∈
        ["Low Risk", "Moderate Risk"] ↔
      50 ≤ (predict model req elapsed_ms).trust_score) := by
  have h := score_to_category_mem_approved_iff (trustScore (model (featureVector req)))
  simp only [predict, List.mem_cons, List.not_mem_nil, or_false]
  constructor
  · simpa [ge_iff_le, decide_eq_true_iff] using h.symm
  · simpa using h

/-! ## C10 — predict is deterministic modulo latency -/

/-- **C10.** Two `predict` calls with equal request fields against the same
loaded model return equal `trust_score`, `risk_category`, `approved` and
`model_version`; only the measured latency may differ. -/
theorem predict_deterministic (model : Model) (req : PredictRequest)
    (elapsed1 elapsed2 : ℚ) :
    (predict model req elapsed1).trust_score =
        (predict model req elapsed2).trust_score ∧
    (predict model req elapsed1).risk_category =
        (predict model req elapsed2).risk_category ∧
    (predict model req elapsed1).approved =
        (predict model req elapsed2).approved ∧
    (predict model req elapsed1).model_version =
        (predict model req elapsed2).model_version :=
  ⟨rfl, rfl, rfl, rfl⟩

/-! ## C3 — the probability-to-trust-score transform -/

lemma rawTrustScore_mono {p q : ℝ} (h : p ≤ q) :
    rawTrustScore p ≤ rawTrustScore q := by
  unfold rawTrustScore
  have h1 : Real.exp (-10 * (q - 0.5)) ≤ Real.exp (-10 * (p - 0.5)) :=
    Real.exp_le_exp.mpr (by linarith)
  have h2 : (0 : ℝ) < 1 + Real.exp (-10 * (q - 0.5)) := by positivity
  exact div_le_div_of_nonneg_left (by norm_num) h2 (by linarith)

lemma trustScore_mono {p q : ℝ} (h : p ≤ q) : trustScore p ≤ trustScore q := by
  unfold trustScore round1
  have hr : round (10 * rawTrustScore p) ≤ round (10 * rawTrustScore q) := by
    rw [round_eq, round_eq]
    exact Int.floor_le_floor (by linarith [rawTrustScore_mono h])
  have hc : ((round (10 * rawTrustScore p) : ℤ) : ℚ) ≤
      ((round (10 * rawTrustScore q) : ℤ) : ℚ) := Int.cast_le.mpr hr
  linarith

lemma rawTrustScore_half : rawTrustScore 0.5 = 50 := by
  unfold rawTrustScore
  have h : (-10 : ℝ) * (0.5 - 0.5) = 0 := by norm_num
  rw [h, Real.exp_zero]
  norm_num

lemma trustScore_half : trustScore 0.5 = 50 := by
  unfold trustScore round1
  rw [rawTrustScore_half]
  have h : (10 : ℝ) * 50 = ((500 : ℤ) : ℝ) := by norm_num
  rw [h, round_intCast]
  norm_num

/-- **C3.** The probability-to-trust-score transform equals
`round(100 / (1 + exp(-10 * (p - 0.5))), 1)`; it is monotonically
non-decreasing on `[0, 1]`, and `score(0.5) = 50.0` exactly. -/
theorem trustScore_formula_monotone :
    (∀ p : ℝ, trustScore p =
      ((round (10 * (100 / (1 + Real.exp (-10 * (p - 0.5))))) : ℤ) : ℚ) / 10) ∧
    (∀ p q : ℝ, 0 ≤ p → p ≤ q → q ≤ 1 → trustScore p ≤ trustScore q) ∧
    trustScore 0.5 = 50 :=
  ⟨fun _ => rfl, fun _ _ _ hpq _ => trustScore_mono hpq, trustScore_half⟩

/-- Witness for C3: the monotonicity statement applied at the endpoints of
`[0, 1]`. -/
theorem trustScore_formula_monotone_witness : trustScore 0 ≤ trustScore 1 :=
  trustScore_formula_monotone.2.1 0 1 le_rfl zero_le_one le_rfl

/-! ## C4 — stored records are score/category consistent -/

lemma evaluateAndStore_records (model : Model) (applicant_name : String)
    (req : PredictRequest) (officer_id : String) (ts : ℕ) (elapsed_ms : ℚ)
    (s : Store) :
    (evaluateAndStore model applicant_name req officer_id ts elapsed_ms
        s).records =
      s.records ++
        [⟨s.nextId, if applicant_name = "" then "Anonymous" else applicant_name,
          req.farm_size, req.soil_score, req.rainfall, req.previous_loans,
          req.yield_amount, (predict model req elapsed_ms).trust_score,
          (predict model req elapsed_ms).risk_category, officer_id, ts⟩] :=
  rfl

lemma predict_risk_category_consistent (model : Model) (req : PredictRequest)
    (elapsed_ms : ℚ) :
    (predict model req elapsed_ms).risk_category =
      score_to_category (predict model req elapsed_ms).trust_score :=
  rfl

lemma runEvaluations_consistent (evals : List EvalInput) (s : Store)
    (hs : ∀ r ∈ s.records, r.risk_category = score_to_category r.trust_score) :
    ∀ r ∈ (runEvaluations evals s).records,
      r.risk_category = score_to_category r.trust_score := by
  induction evals generalizing s with
  | nil => exact hs
  | cons e es ih =>
    apply ih
    intro r hr
    rw [evaluateAndStore_records] at hr
    rcases List.mem_append.mp hr with h | h
    · exact hs r h
    · rw [List.mem_singleton.mp h]
      exact predict_risk_category_consistent e.model e.req e.elapsed_ms

/-- **C4.** Every record stored through the evaluate handler has a
`risk_category` equal to the tier the score-to-tier mapping assigns to its
stored `trust_score`, even though `insert_application` accepts the two
fields independently. -/
theorem evaluation_records_consistent (evals : List EvalInput)
    (r : ApplicationRecord)
    (hr : r ∈ (runEvaluations evals emptyStore).records) :
    r.risk_category = score_to_category r.trust_score :=
  runEvaluations_consistent evals emptyStore (by simp [emptyStore]) r hr

/-- The sample request of the spec's end-to-end example. -/
def reqExample : PredictRequest := ⟨5, 65, 750, 1, 7/2⟩

/-- A concrete evaluation: a classifier that returns probability 1/2. -/
noncomputable def evalExample : EvalInput :=
  ⟨fun _ => 0.5, "Ramesh", reqExample, "system", 0, 0⟩

/-- Witness for C4: the single record produced by one concrete evaluation is
score/category consistent. -/
theorem evaluation_records_consistent_witness :
    (⟨1, "Ramesh", 5, 65, 750, 1, 7/2,
        (predict (fun _ => 0.5) reqExample 0).trust_score,
        (predict (fun _ => 0.5) reqExample 0).risk_category,
        "system", 0⟩ : ApplicationRecord).risk_category =
      score_to_category
        (⟨1, "Ramesh", 5, 65, 750, 1, 7/2,
          (predict (fun _ => 0.5) reqExample 0).trust_score,
          (predict (fun _ => 0.5) reqExample 0).risk_category,
          "system", 0⟩ : ApplicationRecord).trust_score :=
  evaluation_records_consistent [evalExample] _ (List.mem_singleton.mpr rfl)

/-! ## C6 — the store is an append-only log -/

lemma insertDesc_perm (r : ApplicationRecord) (l : List ApplicationRecord) :
    (insertDesc r l).Perm (r :: l) := by
  induction l with
  | nil => exact List.Perm.refl _
  | cons x xs ih =>
    unfold insertDesc
    split_ifs with h
    · exact List.Perm.refl _
    · exact (List.Perm.cons x ih).trans (List.Perm.swap r x xs)

lemma sortByTimestampDesc_perm (l : List ApplicationRecord) :
    (sortByTimestampDesc l).Perm l := by
  induction l with
  | nil => exact List.Perm.refl _
  | cons r rs ih =>
    exact (insertDesc_perm r (sortByTimestampDesc rs)).trans (List.Perm.cons r ih)

/-- **C6.** `insert_application` only appends: the previous records are left
unchanged, the new record carries the fresh store-assigned id (which is also
the returned id), reading back the whole table returns exactly the stored
records, and when all existing ids are below the auto-increment counter the
new id collides with no existing record and the property is preserved. -/
theorem insert_application_append_only (s : Store) (applicant_name : String)
    (farm_size : ℚ) (soil_score : ℤ) (rainfall : ℚ) (previous_loans : ℤ)
    (yield_amount : ℚ) (trust_score : ℚ) (risk_category : String)
    (officer_id : String) (ts : ℕ) :
    ((insert_application applicant_name farm_size soil_score rainfall
        previous_loans yield_amount trust_score risk_category officer_id ts
        s).1.records =
      s.records ++
        [⟨s.nextId, applicant_name, farm_size, soil_score, rainfall,
          previous_loans, yield_amount, trust_score, risk_category,
          officer_id, ts⟩]) ∧
    ((insert_application applicant_name farm_size soil_score rainfall
        previous_loans yield_amount trust_score risk_category officer_id ts
        s).2 = s.nextId) ∧
    (fetch_all_applications "All" s).Perm s.records ∧
    ((∀ r ∈ s.records, r.id < s.nextId) →
      (∀ r ∈ s.records, r.id ≠ s.nextId) ∧
      (∀ r ∈ (insert_application applicant_name farm_size soil_score rainfall
          previous_loans yield_amount trust_score risk_category officer_id ts
          s).1.records,
        r.id < (insert_application applicant_name farm_size soil_score
          rainfall previous_loans yield_amount trust_score risk_category
          officer_id ts s).1.nextId)) := by
  refine ⟨rfl, rfl, ?_, ?_⟩
  · unfold fetch_all_applications
    rw [if_pos rfl]
    exact sortByTimestampDesc_perm s.records
  · intro hids
    refine ⟨fun r hr => Nat.ne_of_lt (hids r hr), fun r hr => ?_⟩
    rcases List.mem_append.mp hr with h | h
    · exact Nat.lt_succ_of_lt (hids r h)
    · rw [List.mem_singleton.mp h]
      exact Nat.lt_succ_self s.nextId

/-- Witness for C6: inserting into the empty store preserves the
ids-below-counter invariant. -/
theorem insert_application_append_only_witness :
    (∀ r ∈ emptyStore.records, r.id < emptyStore.nextId) ∧
    (∀ r ∈ (insert_application "A" 1 1 1 1 1 50 "Moderate Risk" "system" 0
        emptyStore).1.records,
      r.id < (insert_application "A" 1 1 1 1 1 50 "Moderate Risk" "system" 0
        emptyStore).1.nextId) :=
  ⟨by decide,
    ((insert_application_append_only emptyStore "A" 1 1 1 1 1 50
      "Moderate Risk" "system" 0).2.2.2 (by decide)).2⟩

/-! ## C5 — summary statistics -/

lemma dedup_count_sum {α : Type} [DecidableEq α] (l : List α) :
    (l.dedup.map (fun c => l.count c)).sum = l.length := by
  rw [Finset.sum_list_map_count]
  have h1 : l.dedup.toFinset = l.toFinset := by
    ext a
    simp [List.mem_toFinset, List.mem_dedup]
  rw [h1]
  have h2 : ∀ a ∈ l.toFinset, l.dedup.count a • l.count a = l.count a := by
    intro a ha
    rw [List.count_dedup]
    simp [List.mem_toFinset.mp ha]
  rw [Finset.sum_congr rfl h2]
  exact List.sum_toFinset_count_eq_length l

lemma filter_category_length (records : List ApplicationRecord) (c : String) :
    (records.filter (fun r => r.risk_category == c)).length =
      (records.map (fun r => r.risk_category)).count c := by
  rw [List.count_eq_countP, List.countP_map, ← List.countP_eq_length_filter]
  rfl

lemma runInserts_records_length (inputs : List InsertInput) (s : Store) :
    (runInserts inputs s).records.length = s.records.length + inputs.length := by
  induction inputs generalizing s with
  | nil => simp [runInserts]
  | cons i is ih =>
    show (runInserts is _).records.length = _
    rw [ih]
    simp [insert_application]
    omega

/-- **C5.** After inserting exactly `N` records, the summary reports
`total = N`; `approved` counts the records whose category is Low or Moderate
Risk; `rejected = total - approved` with `approved + rejected = N`; the
per-category distribution covers exactly the categories present and its
counts sum to `N`; and the average is the mean trust score rounded to one
decimal place, reported as `0` when there are no records. -/
theorem get_summary_stats_correct (inputs : List InsertInput) :
    (get_summary_stats (runInserts inputs emptyStore)).total = inputs.length ∧
    (get_summary_stats (runInserts inputs emptyStore)).approved =
      ((runInserts inputs emptyStore).records.filter
        isApprovedCategory).length ∧
    (get_summary_stats (runInserts inputs emptyStore)).rejected =
      (get_summary_stats (runInserts inputs emptyStore)).total -
        (get_summary_stats (runInserts inputs emptyStore)).approved ∧
    (get_summary_stats (runInserts inputs emptyStore)).approved +
        (get_summary_stats (runInserts inputs emptyStore)).rejected =
      inputs.length ∧
    (((get_summary_stats (runInserts inputs emptyStore)).distribution.map
        Prod.snd).sum = inputs.length ∧
      ∀ c : String,
        c ∈ (runInserts inputs emptyStore).records.map
              (fun r => r.risk_category) ↔
        c ∈ (get_summary_stats (runInserts inputs emptyStore)).distribution.map
              Prod.fst) ∧
    (get_summary_stats (runInserts inputs emptyStore)).avg_score =
      (if (runInserts inputs emptyStore).records.length = 0 then 0
       else round1Q
         (((runInserts inputs emptyStore).records.map
             (fun r => r.trust_score)).sum /
           ((runInserts inputs emptyStore).records.length : ℚ))) := by
  have hlen : (runInserts inputs emptyStore).records.length = inputs.length := by
    rw [runInserts_records_length]
    simp [emptyStore]
  have happle : ((runInserts inputs emptyStore).records.filter
      isApprovedCategory).length ≤
      (runInserts inputs emptyStore).records.length :=
    List.length_filter_le _ _
  refine ⟨hlen, rfl, rfl, ?_, ⟨?_, ?_⟩, ?_⟩
  · show ((runInserts inputs emptyStore).records.filter
        isApprovedCategory).length +
      ((runInserts inputs emptyStore).records.length -
        ((runInserts inputs emptyStore).records.filter
          isApprovedCategory).length) = inputs.length
    omega
  · show ((((runInserts inputs emptyStore).records.map
        (fun r => r.risk_category)).dedup.map _).map Prod.snd).sum = _
    rw [List.map_map, ← hlen]
    have h : (Prod.snd ∘ fun c =>
        (c, ((runInserts inputs emptyStore).records.filter
          (fun r => r.risk_category == c)).length)) = fun c =>
        ((runInserts inputs emptyStore).records.map
          (fun r => r.risk_category)).count c := by
      funext c
      exact filter_category_length _ c
    rw [h, dedup_count_sum, List.length_map]
  · intro c
    show _ ↔ c ∈ (((runInserts inputs emptyStore).records.map
        (fun r => r.risk_category)).dedup.map _).map Prod.fst
    rw [List.map_map]
    have h : (Prod.fst ∘ fun c =>
        (c, ((runInserts inputs emptyStore).records.filter
          (fun r => r.risk_category == c)).length)) = id := by
      funext c
      rfl
    rw [h, List.map_id, List.mem_dedup]
  · show (if (runInserts inputs emptyStore).records.length = 0 then (0 : ℚ)
      else
        if ((runInserts inputs emptyStore).records.map
              (fun r => r.trust_score)).sum /
            ((runInserts inputs emptyStore).records.length : ℚ) = 0 then 0
        else round1Q _) = _
    split_ifs with h1 h2
    · rfl
    · rw [h2]
      show (0 : ℚ) = ((round ((10 : ℚ) * 0) : ℤ) : ℚ) / 10
      norm_num
    · rfl

/-! ## C7 — list with no filter returns newest first -/

lemma insertDesc_eq_append {r : ApplicationRecord} :
    ∀ {l : List ApplicationRecord}, (∀ x ∈ l, r.timestamp < x.timestamp) →
      insertDesc r l = l ++ [r]
  | [], _ => rfl
  | x :: xs, h => by
    unfold insertDesc
    rw [if_neg (not_le.mpr (h x (List.mem_cons_self x xs)))]
    rw [insertDesc_eq_append (fun y hy => h y (List.mem_cons_of_mem x hy))]
    rfl

lemma sortByTimestampDesc_of_increasing :
    ∀ {l : List ApplicationRecord},
      (l.map (fun r => r.timestamp)).Pairwise (· < ·) →
      sortByTimestampDesc l = l.reverse
  | [], _ => rfl
  | r :: rs, h => by
    rw [List.map_cons, List.pairwise_cons] at h
    show insertDesc r (sortByTimestampDesc rs) = (r :: rs).reverse
    rw [sortByTimestampDesc_of_increasing h.2]
    rw [insertDesc_eq_append (fun x hx =>
      h.1 x.timestamp (List.mem_map_of_mem _ (List.mem_reverse.mp hx)))]
    rw [List.reverse_cons]

lemma runInserts_records_timestamps (inputs : List InsertInput) (s : Store) :
    (runInserts inputs s).records.map (fun r => r.timestamp) =
      s.records.map (fun r => r.timestamp) ++ inputs.map (fun i => i.ts) := by
  induction inputs generalizing s with
  | nil => simp [runInserts]
  | cons i is ih =>
    show (runInserts is _).records.map _ = _
    rw [ih]
    simp [insert_application]

/-- **C7.** After inserting a sequence of records at strictly increasing
timestamps, `fetch_all_applications` with no filter returns all of them
ordered by timestamp descending, i.e. newest first. -/
theorem fetch_all_newest_first (inputs : List InsertInput)
    (h : (inputs.map (fun i => i.ts)).Pairwise (· < ·)) :
    fetch_all_applications "All" (runInserts inputs emptyStore) =
      (runInserts inputs emptyStore).records.reverse := by
  unfold fetch_all_applications
  rw [if_pos rfl]
  apply sortByTimestampDesc_of_increasing
  rw [runInserts_records_timestamps]
  simpa [emptyStore] using h

/-- Witness for C7: two concrete inserts at timestamps 1 < 2 come back
newest first. -/
theorem fetch_all_newest_first_witness :
    fetch_all_applications "All"
        (runInserts
          [⟨"A", 1, 1, 1, 1, 1, 50, "Moderate Risk", "system", 1⟩,
           ⟨"B", 1, 1, 1, 1, 1, 80, "Low Risk", "system", 2⟩] emptyStore) =
      (runInserts
          [⟨"A", 1, 1, 1, 1, 1, 50, "Moderate Risk", "system", 1⟩,
           ⟨"B", 1, 1, 1, 1, 1, 80, "Low Risk", "system", 2⟩]
        emptyStore).records.reverse :=
  fetch_all_newest_first _ (by decide)

/-! ## C8 — list with a risk-category filter -/

/-- **C8.** For every store state, `fetch_all_applications` with a
risk-category filter returns exactly the records whose stored
`risk_category` equals the filter value, and the empty list when no record
matches. -/
theorem fetch_all_filter_correct (s : Store) (c : String) (hc : c ≠ "All") :
    (∀ r : ApplicationRecord,
      r ∈ fetch_all_applications c s ↔ r ∈ s.records ∧ r.risk_category = c) ∧
    ((∀ r ∈ s.records, r.risk_category ≠ c) →
      fetch_all_applications c s = []) := by
  unfold fetch_all_applications
  rw [if_neg hc]
  constructor
  · intro r
    rw [(sortByTimestampDesc_perm _).mem_iff, List.mem_filter]
    simp only [beq_iff_eq]
  · intro h
    have hnil : s.records.filter (fun r => r.risk_category == c) = [] := by
      rw [List.filter_eq_nil_iff]
      intro r hr
      simpa using h r hr
    rw [hnil]
    rfl

/-- Witness for C8: a two-record store filtered to `"Low Risk"` keeps
exactly the low-risk record. -/
theorem fetch_all_filter_correct_witness :
    (⟨1, "A", 1, 1, 1, 1, 1, 80, "Low Risk", "system", 1⟩ : ApplicationRecord) ∈
        fetch_all_applications "Low Risk"
          ⟨[⟨1, "A", 1, 1, 1, 1, 1, 80, "Low Risk", "system", 1⟩,
            ⟨2, "B", 1, 1, 1, 1, 1, 40, "High Risk", "system", 2⟩], 3⟩ ↔
      (⟨1, "A", 1, 1, 1, 1, 1, 80, "Low Risk", "system", 1⟩ :
          ApplicationRecord) ∈
        (⟨[⟨1, "A", 1, 1, 1, 1, 1, 80, "Low Risk", "system", 1⟩,
           ⟨2, "B", 1, 1, 1, 1, 1, 40, "High Risk", "system", 2⟩], 3⟩ :
          Store).records ∧
      (⟨1, "A", 1, 1, 1, 1, 1, 80, "Low Risk", "system", 1⟩ :
          ApplicationRecord).risk_category = "Low Risk" :=
  (fetch_all_filter_correct
    ⟨[⟨1, "A", 1, 1, 1, 1, 1, 80, "Low Risk", "system", 1⟩,
      ⟨2, "B", 1, 1, 1, 1, 1, 40, "High Risk", "system", 2⟩], 3⟩
    "Low Risk" (by decide)).1 _

/-! ## C9 — concrete pipeline outcomes at p = 0.62 and p = 0.5 -/

lemma exp_fifth_lower : (916/750 : ℝ) ≤ Real.exp (1/5) := by
  have h := Real.sum_le_exp_of_nonneg (show (0:ℝ) ≤ 1/5 by norm_num) 4
  rw [Finset.sum_range_succ, Finset.sum_range_succ, Finset.sum_range_succ,
    Finset.sum_range_succ, Finset.sum_range_zero] at h
  norm_num [Nat.factorial] at h
  linarith

lemma exp_fifth_upper : Real.exp (1/5) ≤ 14657/12000 := by
  have h := Real.exp_bound' (show (0:ℝ) ≤ 1/5 by norm_num)
    (show (1:ℝ)/5 ≤ 1 by norm_num) (show 0 < 4 by norm_num)
  rw [Finset.sum_range_succ, Finset.sum_range_succ, Finset.sum_range_succ,
    Finset.sum_range_succ, Finset.sum_range_zero] at h
  norm_num [Nat.factorial] at h
  linarith

lemma exp_sixfifths_lower : (33199/10000 : ℝ) ≤ Real.exp (6/5) := by
  have he : Real.exp (6/5) = Real.exp 1 * Real.exp (1/5) := by
    rw [← Real.exp_add]
    norm_num
  have hm : (2.7182818283 : ℝ) * (916/750) ≤ Real.exp 1 * Real.exp (1/5) :=
    mul_le_mul Real.exp_one_gt_d9.le exp_fifth_lower (by norm_num)
      (Real.exp_pos 1).le
  have hq : (33199/10000 : ℝ) ≤ 2.7182818283 * (916/750) := by norm_num
  linarith

lemma exp_sixfifths_upper : Real.exp (6/5) ≤ 33202/10000 := by
  have he : Real.exp (6/5) = Real.exp 1 * Real.exp (1/5) := by
    rw [← Real.exp_add]
    norm_num
  have hm : Real.exp 1 * Real.exp (1/5) ≤ (2.7182818286 : ℝ) * (14657/12000) :=
    mul_le_mul Real.exp_one_lt_d9.le exp_fifth_upper (Real.exp_pos (1/5)).le
      (by norm_num)
  have hq : (2.7182818286 : ℝ) * (14657/12000) ≤ 33202/10000 := by norm_num
  linarith

/-- The trust score at probability 0.62: `round(100/(1+exp(-1.2)), 1) = 76.9`. -/
lemma trustScore_sixtytwo : trustScore 0.62 = 769/10 := by
  unfold trustScore round1 rawTrustScore
  have harg : (-10 : ℝ) * (0.62 - 0.5) = -(6/5) := by norm_num
  rw [harg, Real.exp_neg]
  have hpos : (0:ℝ) < Real.exp (6/5) := Real.exp_pos _
  have hiU : (Real.exp (6/5))⁻¹ ≤ 10000/33199 := by
    have h := inv_anti₀ (show (0:ℝ) < 33199/10000 by norm_num)
      exp_sixfifths_lower
    rw [show ((33199/10000 : ℝ))⁻¹ = 10000/33199 by norm_num] at h
    exact h
  have hiL : (10000/33202 : ℝ) ≤ (Real.exp (6/5))⁻¹ := by
    have h := inv_anti₀ hpos exp_sixfifths_upper
    rw [show ((33202/10000 : ℝ))⁻¹ = 10000/33202 by norm_num] at h
    exact h
  have hd : (0:ℝ) < 1 + (Real.exp (6/5))⁻¹ := by positivity
  have hr : round (10 * (100 / (1 + (Real.exp (6/5))⁻¹))) = 769 := by
    have h10 : (10:ℝ) * (100 / (1 + (Real.exp (6/5))⁻¹)) =
        1000 / (1 + (Real.exp (6/5))⁻¹) := by ring
    rw [h10, round_eq, Int.floor_eq_iff]
    constructor
    · have h1 : (7685/10 : ℝ) * (1 + (Real.exp (6/5))⁻¹) ≤ 1000 := by
        nlinarith [hiU]
      have h2 : (7685/10 : ℝ) ≤ 1000 / (1 + (Real.exp (6/5))⁻¹) :=
        (le_div_iff₀ hd).mpr h1
      push_cast
      linarith
    · have h1 : (1000 : ℝ) < (7695/10) * (1 + (Real.exp (6/5))⁻¹) := by
        nlinarith [hiL]
      have h2 : (1000 : ℝ) / (1 + (Real.exp (6/5))⁻¹) < 7695/10 :=
        (div_lt_iff₀ hd).mpr h1
      push_cast
      linarith
  rw [hr]
  norm_num

/-- **C9.** When the classifier returns `p = 0.62` the pipeline produces
trust score `76.9`, category `"Low Risk"`, `approved = true`; at the
boundary `p = 0.5` it produces trust score `50.0`, category
`"Moderate Risk"`, `approved = true`. -/
theorem predict_boundary_examples (model : Model) (req : PredictRequest)
    (elapsed_ms : ℚ) :
    (model (featureVector req) = 0.62 →
      (predict model req elapsed_ms).trust_score = 769/10 ∧
      (predict model req elapsed_ms).risk_category = "Low Risk" ∧
      (predict model req elapsed_ms).approved = true) ∧
    (model (featureVector req) = 0.5 →
      (predict model req elapsed_ms).trust_score = 50 ∧
      (predict model req elapsed_ms).risk_category = "Moderate Risk" ∧
      (predict model req elapsed_ms).approved = true) := by
  constructor <;> intro hp
  · have ht : (predict model req elapsed_ms).trust_score = 769/10 := by
      show trustScore (model (featureVector req)) = 769/10
      rw [hp]
      exact trustScore_sixtytwo
    refine ⟨ht, ?_, ?_⟩
    · show score_to_category (trustScore (model (featureVector req))) = _
      rw [show trustScore (model (featureVector req)) = 769/10 from ht]
      exact score_to_category_eq_low (by norm_num)
    · show decide (trustScore (model (featureVector req)) ≥ 50) = true
      rw [show trustScore (model (featureVector req)) = 769/10 from ht]
      exact decide_eq_true (by norm_num)
  · have ht : (predict model req elapsed_ms).trust_score = 50 := by
      show trustScore (model (featureVector req)) = 50
      rw [hp]
      exact trustScore_half
    refine ⟨ht, ?_, ?_⟩
    · show score_to_category (trustScore (model (featureVector req))) = _
      rw [show trustScore (model (featureVector req)) = 50 from ht]
      unfold score_to_category
      rw [if_neg (by norm_num), if_pos (by norm_num)]
    · show decide (trustScore (model (featureVector req)) ≥ 50) = true
      rw [show trustScore (model (featureVector req)) = 50 from ht]
      exact decide_eq_true (by norm_num)

/-- Witness for C9: classifiers that return exactly 0.62 and exactly 0.5 on
the example request. -/
theorem predict_boundary_examples_witness :
    (predict (fun _ => (0.62 : ℝ)) reqExample 0).risk_category = "Low Risk" ∧
    (predict (fun _ => (0.5 : ℝ)) reqExample 0).risk_category =
      "Moderate Risk" :=
  ⟨((predict_boundary_examples (fun _ => (0.62 : ℝ)) reqExample 0).1 rfl).2.1,
   ((predict_boundary_examples (fun _ => (0.5 : ℝ)) reqExample 0).2 rfl).2.1⟩

end AgriTrust
